import Mathlib

/-!
Verification of the roadrunner-plugins/mcp-server bridge core.

The Go plugin is shallowly embedded: the Go `map[string]T` registries become
association lists with Go's insert/delete semantics, stateful methods become
explicit state-passing functions, and the worker pool (an external
collaborator) is a function parameter.  The JSON codec (`encoding/json`,
external to the repository) is modelled as a typed-bytes codec: a byte string
is represented by the typed value it decodes to, `raw` standing for bytes that
decode to none of the protocol shapes.
-/

namespace Mcp

/-- Association-list model of a Go `map[string]α`. -/
abbrev GoMap (α : Type) := List (String × α)

/-- Go map read `m[k]`. -/
def goLookup {α : Type} : GoMap α → String → Option α
  | [], _ => none
  | (k', v) :: rest, k => if k' = k then some v else goLookup rest k

/-- Go map write `m[k] = v`: replaces the existing entry or appends a new one. -/
def goInsert {α : Type} : GoMap α → String → α → GoMap α
  | [], k, v => [(k, v)]
  | (k', v') :: rest, k, v =>
    if k' = k then (k, v) :: rest else (k', v') :: goInsert rest k v

/-- Go map `delete(m, k)`. -/
def goDelete {α : Type} : GoMap α → String → GoMap α
  | [], _ => []
  | (k', v') :: rest, k => if k' = k then rest else (k', v') :: goDelete rest k

/-- The keys of a Go map model. -/
def keysOf {α : Type} (m : GoMap α) : List String := m.map Prod.fst

/-- A well-formed Go map never has two entries with the same key. -/
def keysNodup {α : Type} (m : GoMap α) : Prop := (keysOf m).Nodup

/-! ### Protocol data types (from `types.go`) -/

/-- `ToolDefinition` from `types.go`: a tool declared by a PHP worker.
The JSON `inputSchema` document is kept opaque as a string key. -/
structure ToolDefinition where
  name : String
  description : String
  inputSchema : String
  deriving Repr, DecidableEq, Inhabited

/-- `mcp.Tool` built by `DeclareTools` from a `ToolDefinition`. -/
structure Tool where
  name : String
  description : String
  inputSchema : String
  deriving Repr, DecidableEq, Inhabited

/-- The `mcp.Tool` value `DeclareTools` constructs for a definition. -/
def toolOf (td : ToolDefinition) : Tool :=
  { name := td.name, description := td.description, inputSchema := td.inputSchema }

/-- `DeclareToolsRequest` from `types.go`. -/
structure DeclareToolsRequest where
  tools : List ToolDefinition
  deriving Repr, DecidableEq, Inhabited

/-- `DeclareToolsResponse` from `types.go`. -/
structure DeclareToolsResponse where
  registered : List String
  updated : List String
  deriving Repr, DecidableEq, Inhabited

/-- The names appearing in a `DeclareToolsRequest`, in order. -/
def reqNames (req : DeclareToolsRequest) : List String := req.tools.map (·.name)

/-- `SessionInfo` from `types.go` (timestamps as integer nanoseconds,
`Metadata` values already stringified). -/
structure SessionInfo where
  id : String
  token : String
  connectedAt : Int
  lastActivity : Int
  transport : String
  metadata : Option (GoMap String)
  deriving Repr, DecidableEq, Inhabited

/-- An entry of the external `mcp.Server` advertised tool set: the tool plus
the tool name captured by the handler closure `createToolHandler` installs. -/
structure ServerTool where
  tool : Tool
  handlerCapturedName : String
  deriving Repr, DecidableEq, Inhabited

/-- The mutable state of `Plugin` that the claims touch: the tool registry,
the external MCP server's advertised tool set, the session registry, and a
counter of `notifyToolsChanged` invocations (the notification itself is a
fire-and-forget signal; we record that it was emitted). -/
structure PluginState where
  tools : GoMap Tool
  server : GoMap ServerTool
  sessions : GoMap SessionInfo
  notified : Nat
  deriving Repr, DecidableEq, Inhabited

/-! ### Configuration (from `config.go`) -/

structure ClientsConfig where
  maxConnections : Int
  readTimeout : Int
  writeTimeout : Int
  pingInterval : Int
  deriving Repr, DecidableEq, Inhabited

structure ToolsConfig where
  notifyClientsOnChange : Bool
  deriving Repr, DecidableEq, Inhabited

structure AuthConfig where
  enabled : Bool
  skipForStdio : Bool
  deriving Repr, DecidableEq, Inhabited

/-- The external `pool.Config` (roadrunner-server/pool), opaque here. -/
inductive PoolConfig
  | mk
  deriving Repr, DecidableEq, Inhabited

/-- External `pool.Config.InitDefaults` (outside this repository): only its
existence matters to `Config.InitDefaults`. -/
def PoolConfig.initDefaults (p : PoolConfig) : PoolConfig := p

/-- `Config` from `config.go`, durations in nanoseconds as in `time.Duration`. -/
structure Config where
  transport : String
  address : String
  pool : Option PoolConfig
  clients : ClientsConfig
  tools : ToolsConfig
  auth : AuthConfig
  debug : Bool
  deriving Repr, DecidableEq, Inhabited

/-- `time.Second` in nanoseconds. -/
def timeSecond : Int := 1000000000

/-- `Config.Validate` from `config.go`; `some msg` models a non-nil error. -/
def Config.validate (c : Config) : Option String :=
  if c.transport ≠ "sse" ∧ c.transport ≠ "stdio" then
    some "transport must be one of sse or stdio"
  else if c.transport = "sse" ∧ c.address = "" then
    some "address is required for SSE transport"
  else if c.clients.maxConnections < 1 then
    some "max_connections must be at least 1"
  else if c.clients.readTimeout < timeSecond then
    some "read_timeout must be at least 1 second"
  else if c.clients.writeTimeout < timeSecond then
    some "write_timeout must be at least 1 second"
  else if c.clients.pingInterval < timeSecond then
    some "ping_interval must be at least 1 second"
  else
    none

/-- `Config.InitDefaults` from `config.go`: fills zero values, then
unconditionally sets `Tools.NotifyClientsOnChange` and `Auth.SkipForStdio`
to `true`, and finally validates.  Returns the mutated config together with
the error returned to the caller. -/
def Config.initDefaults (c : Config) : Config × Option String :=
  let c := if c.transport = "" then { c with transport := "sse" } else c
  let c := if c.address = "" then { c with address := "127.0.0.1:9333" } else c
  let c := match c.pool with
    | none => { c with pool := some (PoolConfig.initDefaults PoolConfig.mk) }
    | some p => { c with pool := some (PoolConfig.initDefaults p) }
  let c := if c.clients.maxConnections = 0 then
    { c with clients.maxConnections := 100 } else c
  let c := if c.clients.readTimeout = 0 then
    { c with clients.readTimeout := 60 * timeSecond } else c
  let c := if c.clients.writeTimeout = 0 then
    { c with clients.writeTimeout := 10 * timeSecond } else c
  let c := if c.clients.pingInterval = 0 then
    { c with clients.pingInterval := 30 * timeSecond } else c
  let c := { c with tools.notifyClientsOnChange := true }
  let c := { c with auth.skipForStdio := true }
  (c, c.validate)

/-! ### `DeclareTools` and `RemoveTools` (from `rpc.go`) -/

/-- Accumulator of the `DeclareTools` loop: the registry, the external
server's advertised set, and the response lists built so far. -/
structure DeclareAcc where
  tools : GoMap Tool
  server : GoMap ServerTool
  registered : List String
  updated : List String
  deriving Repr, DecidableEq, Inhabited

/-- The `for _, toolDef := range req.Tools` loop of `DeclareTools`: for each
definition, test pre-existence, build the `mcp.Tool`, install a handler
closing over the name via `mcp.AddTool`, overwrite the registry entry, and
append the name to `Updated` or `Registered`. -/
def declareLoop (acc : DeclareAcc) : List ToolDefinition → DeclareAcc
  | [] => acc
  | td :: rest =>
    let tool := toolOf td
    let acc' : DeclareAcc :=
      match goLookup acc.tools td.name with
      | some _ =>
        { tools := goInsert acc.tools td.name tool
          server := goInsert acc.server td.name
            { tool := tool, handlerCapturedName := td.name }
          registered := acc.registered
          updated := acc.updated ++ [td.name] }
      | none =>
        { tools := goInsert acc.tools td.name tool
          server := goInsert acc.server td.name
            { tool := tool, handlerCapturedName := td.name }
          registered := acc.registered ++ [td.name]
          updated := acc.updated }
    declareLoop acc' rest

/-- `rpcService.DeclareTools` from `rpc.go`.  The Go method always returns a
nil error; the returned `Option String` models it. -/
def declareTools (cfg : Config) (st : PluginState) (req : DeclareToolsRequest) :
    PluginState × DeclareToolsResponse × Option String :=
  let fin := declareLoop
    { tools := st.tools, server := st.server, registered := [], updated := [] }
    req.tools
  let doNotify :=
    cfg.tools.notifyClientsOnChange ∧ 0 < fin.registered.length + fin.updated.length
  ({ st with
      tools := fin.tools
      server := fin.server
      notified := if doNotify then st.notified + 1 else st.notified },
   { registered := fin.registered, updated := fin.updated },
   none)

/-- `rpcService.RemoveTools` from `rpc.go`: deletes every listed name, then
notifies when configured and the input list is non-empty.  Always returns a
nil error. -/
def removeTools (cfg : Config) (st : PluginState) (names : List String) :
    PluginState × Option String :=
  let tools' := names.foldl (fun m n => goDelete m n) st.tools
  let doNotify := cfg.tools.notifyClientsOnChange ∧ 0 < names.length
  ({ st with
      tools := tools'
      notified := if doNotify then st.notified + 1 else st.notified },
   none)

/-! ### Properties of the `DeclareTools` loop -/

/-- The last definition carrying a given name in a request, i.e. the one whose
`mcp.Tool` survives in the registry. -/
def lastDefNamed (name : String) : List ToolDefinition → Option ToolDefinition
  | [] => none
  | td :: rest =>
    match lastDefNamed name rest with
    | some r => some r
    | none => if td.name = name then some td else none

/-! ### Sequences of `DeclareTools` calls -/

/-- Runs a sequence of `DeclareTools` RPC calls, collecting the responses. -/
def runDeclares (cfg : Config) : PluginState → List DeclareToolsRequest →
    PluginState × List DeclareToolsResponse
  | st, [] => (st, [])
  | st, r :: rs =>
    let out := declareTools cfg st r
    let next := runDeclares cfg out.1 rs
    (next.1, out.2.1 :: next.2)

/-- The plugin state after a sequence of `DeclareTools` calls. -/
def stateAfter (cfg : Config) (st : PluginState)
    (calls : List DeclareToolsRequest) : PluginState :=
  (runDeclares cfg st calls).1

/-! ### Concrete fixtures used by witnesses -/

def testClients : ClientsConfig :=
  { maxConnections := 100, readTimeout := 60 * timeSecond,
    writeTimeout := 10 * timeSecond, pingInterval := 30 * timeSecond }

def testConfig : Config :=
  { transport := "sse", address := "127.0.0.1:9333", pool := some PoolConfig.mk,
    clients := testClients, tools := { notifyClientsOnChange := true },
    auth := { enabled := true, skipForStdio := true }, debug := false }

def emptyState : PluginState :=
  { tools := [], server := [], sessions := [], notified := 0 }

def tdEcho1 : ToolDefinition :=
  { name := "echo", description := "first", inputSchema := "s1" }

def tdEcho2 : ToolDefinition :=
  { name := "echo", description := "second", inputSchema := "s2" }

def c1Calls : List DeclareToolsRequest :=
  [{ tools := [tdEcho1] }, { tools := [tdEcho2] }]

/-! ### Worker payloads and the JSON codec model (from `types.go`) -/

structure ClientConnectedPayload where
  sessionID : String
  credentials : GoMap String
  deriving Repr, DecidableEq, Inhabited

structure ClientConnectedResponse where
  allowed : Bool
  token : String
  message : String
  deriving Repr, DecidableEq, Inhabited

/-- `MCPContent` from `types.go`: one item of a worker response, a tagged
union discriminated by `type`. -/
structure MCPContent where
  type : String
  text : String
  data : String
  uri : String
  mimeType : String
  deriving Repr, DecidableEq, Inhabited

/-- `CallToolResponse` from `types.go`. -/
structure CallToolResponse where
  content : List MCPContent
  isError : Bool
  deriving Repr, DecidableEq, Inhabited

/-- Byte strings, modelled by the typed protocol value they decode to;
`raw` stands for bytes matching none of the protocol shapes. -/
inductive Bytes
  | clientConnectedPayloadB (p : ClientConnectedPayload)
  | callToolPayloadB (sessionID toolName : String) (arguments : Bytes)
  | clientConnectedResponseB (r : ClientConnectedResponse)
  | callToolResponseB (r : CallToolResponse)
  | raw (s : String)
  deriving Repr, DecidableEq, Inhabited

/-- `CallToolPayload` from `types.go` (`Arguments` is a raw JSON message). -/
structure CallToolPayload where
  sessionID : String
  toolName : String
  arguments : Bytes
  deriving Repr, DecidableEq, Inhabited

/-- `json.Marshal` of a `CallToolPayload` (never fails for this struct). -/
def CallToolPayload.enc (p : CallToolPayload) : Bytes :=
  .callToolPayloadB p.sessionID p.toolName p.arguments

/-- A Go `interface{}` value passed as a payload: either serializable to some
bytes, or rejected by `json.Marshal`. -/
inductive GoValue
  | jsonable (b : Bytes)
  | unserializable (msg : String)
  deriving Repr, DecidableEq, Inhabited

/-- `json.Marshal` on an arbitrary payload value. -/
def jsonMarshal : GoValue → Except String Bytes
  | .jsonable b => .ok b
  | .unserializable msg => .error msg

/-- `json.Unmarshal` into a `CallToolResponse`. -/
def decodeCallToolResponse : Bytes → Except String CallToolResponse
  | .callToolResponseB r => .ok r
  | _ => .error "unexpected JSON shape"

/-- `json.Unmarshal` into a `ClientConnectedResponse`. -/
def decodeClientConnectedResponse : Bytes → Except String ClientConnectedResponse
  | .clientConnectedResponseB r => .ok r
  | _ => .error "unexpected JSON shape"

/-- Event names from `types.go`. -/
def EventClientConnected : String := "ClientConnected"

def EventCallTool : String := "CallTool"

/-! ### The worker pool boundary (external collaborator) -/

/-- A `context.Context` as the dispatcher observes it: whether it is already
cancelled or past its deadline, and the corresponding error text. -/
structure Ctx where
  done : Bool
  doneErr : String
  deriving Repr, DecidableEq, Inhabited

/-- `payload.Payload` as filled in by `sendEvent`: the code sets only
`Context` and `Body` (both to the marshalled JSON). -/
structure WorkerPayload where
  context : Bytes
  body : Bytes
  deriving Repr, DecidableEq, Inhabited

/-- One response read from the channel returned by `pool.Exec`. -/
structure WorkerResp where
  err : Option String
  body : Bytes
  deriving Repr, DecidableEq, Inhabited

/-- Model of the external `pool.Exec`: either a pool-level error or the
stream of responses the returned channel yields before closing. -/
abbrev Pool := Ctx → WorkerPayload → Except String (List WorkerResp)

/-- The error classes `sendEvent` can return, one per `return nil, ...` site
in `handler.go`. -/
inductive SendErr
  | encodingFailed (msg : String)
  | workerExecFailed (msg : String)
  | responseError (msg : String)
  | noResponse
  deriving Repr, DecidableEq, Inhabited

/-- The error text carried by a `SendErr` (for wrapping with `fmt.Errorf`). -/
def SendErr.msg : SendErr → String
  | .encodingFailed m => "failed to marshal payload: " ++ m
  | .workerExecFailed m => "worker execution failed: " ++ m
  | .responseError m => m
  | .noResponse => "no response from worker"

/-- What `sendEvent` returns: the Go pair (body, error), plus — recorded for
specification purposes — the header map the code builds, the payload handed
to `pool.Exec`, and the number of `Exec` invocations. -/
structure SendResult where
  body : Option Bytes
  err : Option SendErr
  headersBuilt : GoMap (List String)
  sent : Option WorkerPayload
  execCalls : Nat
  deriving Repr, DecidableEq, Inhabited

/-- The header map `sendEvent` builds: the three fixed correlation fields,
the method marker, and the session token when one is stored and non-empty. -/
def buildHeaders (sessions : GoMap SessionInfo) (sessionID eventName : String) :
    GoMap (List String) :=
  let sessionInfo := goLookup sessions sessionID
  let headers : GoMap (List String) :=
    [("X-MCP-Event", [eventName]), ("X-Session-ID", [sessionID]),
     ("Content-Type", ["application/json"]), ("X-MCP-Method", ["POST"])]
  match sessionInfo with
  | some info =>
    if info.token ≠ "" then goInsert headers "X-Client-Token" [info.token]
    else headers
  | none => headers

/-- The `for response := range responseCh` loop of `sendEvent`: the first
response decides; a closed empty channel yields the no-response error. -/
def readResponses : List WorkerResp → Option Bytes × Option SendErr
  | [] => (none, some .noResponse)
  | r :: _ =>
    match r.err with
    | some e => (none, some (.responseError e))
    | none => (some r.body, none)

/-- `Plugin.sendEvent` from `handler.go`. -/
def sendEvent (pool : Pool) (sessions : GoMap SessionInfo) (ctx : Ctx)
    (sessionID eventName : String) (pl : GoValue) : SendResult :=
  match jsonMarshal pl with
  | .error e =>
    { body := none, err := some (.encodingFailed e), headersBuilt := [],
      sent := none, execCalls := 0 }
  | .ok payloadJSON =>
    let headers := buildHeaders sessions sessionID eventName
    let workerPayload : WorkerPayload :=
      { context := payloadJSON, body := payloadJSON }
    match pool ctx workerPayload with
    | .error e =>
      { body := none, err := some (.workerExecFailed e),
        headersBuilt := headers, sent := some workerPayload, execCalls := 1 }
    | .ok responses =>
      let rb := readResponses responses
      { body := rb.1, err := rb.2, headersBuilt := headers,
        sent := some workerPayload, execCalls := 1 }

/-! ### Tool invocation handler (from `rpc.go`) -/

/-- The protocol-engine content representation built by the handler. -/
inductive McpSdkContent
  | textContent (text : String)
  | imageContent (data : String) (mimeType : String)
  deriving Repr, DecidableEq, Inhabited

/-- The `switch c.Type` mapping in `createToolHandler`: `text` and `image`
keep their shape, `resource` and every other tag fall back to text. -/
def mapContentItem (c : MCPContent) : McpSdkContent :=
  if c.type = "text" then .textContent c.text
  else if c.type = "image" then .imageContent c.data c.mimeType
  else if c.type = "resource" then .textContent c.text
  else .textContent c.text

/-- `mcp.CallToolResult` as filled in by the handler. -/
structure CallToolResult where
  content : List McpSdkContent
  isError : Bool
  deriving Repr, DecidableEq, Inhabited

/-- The Go triple `(*mcp.CallToolResult, interface{}, error)` returned by the
handler (the middle value is always nil in the source). -/
structure HandlerOut where
  result : Option CallToolResult
  err : Option String
  deriving Repr, DecidableEq, Inhabited

/-- `mcp.CallToolRequest.Params.Meta`, as far as the handler reads it. -/
structure CallToolParams where
  meta : Option (GoMap String)
  deriving Repr, DecidableEq, Inhabited

structure CallToolRequestGo where
  params : Option CallToolParams
  deriving Repr, DecidableEq, Inhabited

/-- The session-id extraction at the top of the handler: `Params.Meta`'s
`sessionId` key, with the `"unknown"` sentinel as fallback. -/
def sessionIDOf (request : CallToolRequestGo) : String :=
  match request.params with
  | none => "unknown"
  | some ps =>
    match ps.meta with
    | none => "unknown"
    | some m =>
      match goLookup m "sessionId" with
      | some sid => sid
      | none => "unknown"

/-- `Plugin.updateSessionActivity` from `rpc.go` (current time passed in). -/
def updateSessionActivity (sessions : GoMap SessionInfo) (now : Int)
    (sessionID : String) : GoMap SessionInfo :=
  match goLookup sessions sessionID with
  | some info => goInsert sessions sessionID { info with lastActivity := now }
  | none => sessions

/-- The closure returned by `Plugin.createToolHandler` for `toolName`,
evaluated on one call. -/
def toolHandler (pool : Pool) (now : Int) (st : PluginState) (toolName : String)
    (ctx : Ctx) (request : CallToolRequestGo) (args : GoValue) :
    PluginState × HandlerOut :=
  let sessionID := sessionIDOf request
  let st1 := { st with sessions := updateSessionActivity st.sessions now sessionID }
  match jsonMarshal args with
  | .error e =>
    (st1, { result := none, err := some ("failed to marshal arguments: " ++ e) })
  | .ok argsJSON =>
    let payload : CallToolPayload :=
      { sessionID := sessionID, toolName := toolName, arguments := argsJSON }
    let r := sendEvent pool st1.sessions ctx sessionID EventCallTool
      (.jsonable payload.enc)
    match r.err with
    | some e =>
      (st1, { result := none, err := some ("tool execution failed: " ++ e.msg) })
    | none =>
      match decodeCallToolResponse ((r.body).getD (Bytes.raw "")) with
      | .error e =>
        (st1, { result := none, err := some ("invalid worker response: " ++ e) })
      | .ok result =>
        (st1, { result := some { content := result.content.map mapContentItem,
                                 isError := result.isError },
                err := none })

/-! ### Authentication and the SSE transport (from `handler.go`, `transport.go`) -/

/-- The `ClientConnected` round trip `authenticateSession` performs. -/
def authExchange (pool : Pool) (sessions : GoMap SessionInfo) (ctx : Ctx)
    (sessionID : String) (credentials : GoMap String) : SendResult :=
  sendEvent pool sessions ctx sessionID EventClientConnected
    (.jsonable (.clientConnectedPayloadB
      { sessionID := sessionID, credentials := credentials }))

/-- `Plugin.authenticateSession` from `handler.go`: `.ok token` models the
`(token, nil)` return, `.error` a non-nil error. -/
def authenticateSession (pool : Pool) (cfg : Config)
    (sessions : GoMap SessionInfo) (ctx : Ctx) (sessionID : String)
    (credentials : GoMap String) : Except String String :=
  if !cfg.auth.enabled then .ok ""
  else
    let r := authExchange pool sessions ctx sessionID credentials
    match r.err with
    | some e => .error e.msg
    | none =>
      match decodeClientConnectedResponse ((r.body).getD (Bytes.raw "")) with
      | .error e => .error ("invalid worker response: " ++ e)
      | .ok authResp =>
        if !authResp.allowed then
          .error ("authentication failed: " ++ authResp.message)
        else .ok authResp.token

/-- `strings.TrimPrefix(authHeader, "Bearer ")`. -/
def goTrimBearer (s : String) : String :=
  if s.startsWith "Bearer " then s.drop 7 else s

/-- The credentials map the SSE handler builds from the HTTP request
(`Authorization` header value, remote address, user agent). -/
def buildCredentials (authHeader remoteAddr userAgent : String) :
    GoMap String :=
  let credentials : GoMap String := []
  let credentials :=
    if authHeader ≠ "" then goInsert credentials "token" (goTrimBearer authHeader)
    else credentials
  let credentials := goInsert credentials "ip" remoteAddr
  goInsert credentials "user_agent" userAgent

/-- `Plugin.trackSession` from `transport.go`. -/
def trackSession (sessions : GoMap SessionInfo) (now : Int)
    (sessionID token transport : String) (metadata : Option (GoMap String)) :
    GoMap SessionInfo :=
  goInsert sessions sessionID
    { id := sessionID, token := token, connectedAt := now, lastActivity := now,
      transport := transport, metadata := metadata }

/-- Outcome of the external `mcpServer.Connect` call. -/
inductive ConnectOutcome
  | connected
  | failed (e : String)
  deriving Repr, DecidableEq, Inhabited

structure HttpOut where
  status : Nat
  message : String
  deriving Repr, DecidableEq, Inhabited

/-- Result of one request through the SSE handler: final plugin state, the
HTTP response, and whether `trackSession` ran at any point. -/
structure SseServeResult where
  state : PluginState
  http : HttpOut
  sessionTracked : Bool
  deriving Repr, DecidableEq, Inhabited

/-- One request through the HTTP handler installed by `Plugin.serveSSE`:
credential extraction, authentication when enabled, session tracking, the
external `Connect`, and the deferred `removeSession` when the handler
returns. -/
def serveSSERequest (pool : Pool) (cfg : Config) (st : PluginState) (ctx : Ctx)
    (sessionID authHeader remoteAddr userAgent : String)
    (connect : ConnectOutcome) (now : Int) : SseServeResult :=
  let credentials := buildCredentials authHeader remoteAddr userAgent
  let afterAuth : String → SseServeResult := fun sessionToken =>
    let st1 := { st with sessions :=
      (trackSession st.sessions now sessionID sessionToken "sse" (some credentials)) }
    match connect with
    | .failed _ =>
      { state := { st1 with sessions := goDelete st1.sessions sessionID }
        http := { status := 500, message := "Failed to establish SSE connection" }
        sessionTracked := true }
    | .connected =>
      { state := { st1 with sessions := goDelete st1.sessions sessionID }
        http := { status := 200, message := "" }
        sessionTracked := true }
  if cfg.auth.enabled then
    match authenticateSession pool cfg st.sessions ctx sessionID credentials with
    | .error _ =>
      { state := st
        http := { status := 401, message := "Authentication failed" }
        sessionTracked := false }
    | .ok sessionToken => afterAuth sessionToken
  else afterAuth ""

/-! ### Concrete pools and contexts for witnesses and counterexamples -/

/-- A pool that returns a fixed response stream, ignoring its inputs. -/
def constPool (rs : List WorkerResp) : Pool := fun _ _ => .ok rs

/-- A pool that honours cancellation: with a done context it returns the
context error. -/
def cancelAwarePool (rs : List WorkerResp) : Pool := fun ctx _ =>
  if ctx.done then .error ctx.doneErr else .ok rs

/-- A pool whose worker denies every `ClientConnected` handshake. -/
def denyPool : Pool := fun _ _ =>
  .ok [{ err := none,
         body := Bytes.clientConnectedResponseB
           { allowed := false, token := "", message := "Invalid credentials" } }]

def ctxLive : Ctx := { done := false, doneErr := "" }

def ctxCancelled : Ctx := { done := true, doneErr := "context canceled" }

def sessionS1 : SessionInfo :=
  { id := "s1", token := "tok", connectedAt := 0, lastActivity := 0,
    transport := "sse", metadata := none }

def respErrText : CallToolResponse :=
  { content := [{ type := "text", text := "boom", data := "", uri := "",
                  mimeType := "" }], isError := true }

def resourceItem : MCPContent :=
  { type := "resource", text := "fallback", data := "", uri := "file:///x",
    mimeType := "text/plain" }

theorem goLookup_goInsert_self {α : Type} (m : GoMap α) (k : String) (v : α) :
    goLookup (goInsert m k v) k = some v := by
  induction m with
  | nil => simp [goInsert, goLookup]
  | cons hd tl ih =>
    obtain ⟨k', v'⟩ := hd
    by_cases h : k' = k <;> simp [goInsert, goLookup, h, ih]

theorem goLookup_goInsert_ne {α : Type} (m : GoMap α) (k k' : String) (v : α)
    (h : k ≠ k') : goLookup (goInsert m k v) k' = goLookup m k' := by
  induction m with
  | nil => simp [goInsert, goLookup, h]
  | cons hd tl ih =>
    obtain ⟨k0, v0⟩ := hd
    by_cases h0 : k0 = k
    · subst h0
      simp [goInsert, goLookup, h]
    · simp only [goInsert, if_neg h0]
      by_cases h1 : k0 = k'
      · simp [goLookup, h1]
      · simp [goLookup, h1, ih]

theorem mem_keysOf_goInsert {α : Type} (m : GoMap α) (k k' : String) (v : α) :
    k' ∈ keysOf (goInsert m k v) ↔ k' = k ∨ k' ∈ keysOf m := by
  induction m with
  | nil => simp [goInsert, keysOf]
  | cons hd tl ih =>
    obtain ⟨k0, v0⟩ := hd
    simp only [goInsert]
    split
    next h0 =>
      subst h0
      simp only [keysOf, List.map_cons, List.mem_cons]
      tauto
    next h0 =>
      simp only [keysOf, List.map_cons, List.mem_cons] at ih ⊢
      tauto

theorem keysNodup_goInsert {α : Type} (m : GoMap α) (k : String) (v : α)
    (h : keysNodup m) : keysNodup (goInsert m k v) := by
  induction m with
  | nil => simp [goInsert, keysNodup, keysOf]
  | cons hd tl ih =>
    obtain ⟨k0, v0⟩ := hd
    simp only [keysNodup, keysOf, List.map_cons, List.nodup_cons] at h
    by_cases h0 : k0 = k
    · subst h0
      simpa [goInsert, keysNodup, keysOf] using h
    · simp only [goInsert, if_neg h0]
      simp only [keysNodup, keysOf, List.map_cons, List.nodup_cons]
      refine ⟨?_, ih h.2⟩
      intro hmem
      rcases (mem_keysOf_goInsert tl k k0 v).1 hmem with h1 | h1
      · exact h0 h1
      · exact h.1 h1

theorem mem_keysOf_goDelete {α : Type} (m : GoMap α) (k k' : String)
    (h : k' ∈ keysOf (goDelete m k)) : k' ∈ keysOf m := by
  induction m with
  | nil => simp [goDelete, keysOf] at h
  | cons hd tl ih =>
    obtain ⟨k0, v0⟩ := hd
    by_cases h0 : k0 = k
    · simp only [goDelete, if_pos h0] at h
      simp only [keysOf, List.map_cons, List.mem_cons]
      exact Or.inr h
    · simp only [goDelete, if_neg h0, keysOf, List.map_cons, List.mem_cons] at h
      simp only [keysOf, List.map_cons, List.mem_cons]
      rcases h with h1 | h1
      · exact Or.inl h1
      · exact Or.inr (ih h1)

theorem keysNodup_goDelete {α : Type} (m : GoMap α) (k : String)
    (h : keysNodup m) : keysNodup (goDelete m k) := by
  induction m with
  | nil => simp [goDelete, keysNodup, keysOf]
  | cons hd tl ih =>
    obtain ⟨k0, v0⟩ := hd
    simp only [keysNodup, keysOf, List.map_cons, List.nodup_cons] at h
    by_cases h0 : k0 = k
    · simp only [goDelete, if_pos h0]
      exact h.2
    · simp only [goDelete, if_neg h0]
      simp only [keysNodup, keysOf, List.map_cons, List.nodup_cons]
      exact ⟨fun hmem => h.1 (mem_keysOf_goDelete tl k k0 hmem), ih h.2⟩

theorem lastDefNamed_eq_none_iff (name : String) (defs : List ToolDefinition) :
    lastDefNamed name defs = none ↔ name ∉ defs.map (·.name) := by
  induction defs with
  | nil => simp [lastDefNamed]
  | cons td rest ih =>
    simp only [lastDefNamed, List.map_cons, List.mem_cons]
    cases hrest : lastDefNamed name rest with
    | some r =>
      simp only [hrest] at ih
      have hmem : name ∈ rest.map (·.name) := by
        by_contra hn
        exact absurd (ih.mpr hn) (by simp)
      constructor
      · intro hcon
        exact absurd hcon (by simp)
      · intro hcon
        exact absurd hmem (fun hm => hcon (Or.inr hm))
    | none =>
      simp only [hrest] at ih
      by_cases h : td.name = name
      · simp only [if_pos h]
        constructor
        · intro hcon
          exact absurd hcon (by simp)
        · intro hcon
          exact absurd (Or.inl h.symm) hcon
      · simp only [if_neg h]
        constructor
        · intro _
          intro hcon
          rcases hcon with h1 | h1
          · exact h h1.symm
          · exact (ih.mp (by trivial)) h1
        · intro _
          trivial

theorem declareLoop_tools_lookup (defs : List ToolDefinition) (acc : DeclareAcc)
    (name : String) :
    goLookup (declareLoop acc defs).tools name =
      match lastDefNamed name defs with
      | some td => some (toolOf td)
      | none => goLookup acc.tools name := by
  induction defs generalizing acc with
  | nil => simp [declareLoop, lastDefNamed]
  | cons td rest ih =>
    cases hpre : goLookup acc.tools td.name with
    | some v =>
      simp only [declareLoop, hpre]
      rw [ih]
      cases hrest : lastDefNamed name rest with
      | some r => simp [lastDefNamed, hrest]
      | none =>
        by_cases h : td.name = name
        · simp only [lastDefNamed, hrest, if_pos h]
          rw [← h]
          exact goLookup_goInsert_self _ _ _
        · simp only [lastDefNamed, hrest, if_neg h]
          exact goLookup_goInsert_ne _ _ _ _ h
    | none =>
      simp only [declareLoop, hpre]
      rw [ih]
      cases hrest : lastDefNamed name rest with
      | some r => simp [lastDefNamed, hrest]
      | none =>
        by_cases h : td.name = name
        · simp only [lastDefNamed, hrest, if_pos h]
          rw [← h]
          exact goLookup_goInsert_self _ _ _
        · simp only [lastDefNamed, hrest, if_neg h]
          exact goLookup_goInsert_ne _ _ _ _ h

theorem declareLoop_keysNodup (defs : List ToolDefinition) (acc : DeclareAcc)
    (h : keysNodup acc.tools) : keysNodup (declareLoop acc defs).tools := by
  induction defs generalizing acc with
  | nil => exact h
  | cons td rest ih =>
    cases hpre : goLookup acc.tools td.name with
    | some v =>
      simp only [declareLoop, hpre]
      exact ih _ (keysNodup_goInsert _ _ _ h)
    | none =>
      simp only [declareLoop, hpre]
      exact ih _ (keysNodup_goInsert _ _ _ h)

theorem declareLoop_registered_count (defs : List ToolDefinition) (acc : DeclareAcc)
    (name : String) :
    ((declareLoop acc defs).registered.count name) =
      acc.registered.count name +
        (if goLookup acc.tools name = none ∧ name ∈ defs.map (·.name) then 1 else 0) := by
  induction defs generalizing acc with
  | nil => simp [declareLoop]
  | cons td rest ih =>
    cases hpre : goLookup acc.tools td.name with
    | some v =>
      simp only [declareLoop, hpre]
      rw [ih]
      by_cases h : td.name = name
      · subst h
        simp [goLookup_goInsert_self, hpre]
      · rw [goLookup_goInsert_ne _ _ _ _ h]
        have h' : ¬name = td.name := fun hh => h hh.symm
        simp [List.map_cons, List.mem_cons, h']
    | none =>
      simp only [declareLoop, hpre]
      rw [ih]
      by_cases h : td.name = name
      · subst h
        simp [goLookup_goInsert_self, hpre, List.count_append]
      · rw [goLookup_goInsert_ne _ _ _ _ h]
        have h' : ¬name = td.name := fun hh => h hh.symm
        simp [List.map_cons, List.mem_cons, h', List.count_append,
          List.count_cons]

theorem declareLoop_updated_count (defs : List ToolDefinition) (acc : DeclareAcc)
    (name : String) :
    ((declareLoop acc defs).updated.count name) +
        (if goLookup acc.tools name = none ∧ name ∈ defs.map (·.name) then 1 else 0) =
      acc.updated.count name + (defs.map (·.name)).count name := by
  induction defs generalizing acc with
  | nil => simp [declareLoop]
  | cons td rest ih =>
    cases hpre : goLookup acc.tools td.name with
    | some v =>
      simp only [declareLoop, hpre]
      have hih := ih { tools := goInsert acc.tools td.name (toolOf td)
                       server := goInsert acc.server td.name
                         { tool := toolOf td, handlerCapturedName := td.name }
                       registered := acc.registered
                       updated := acc.updated ++ [td.name] }
      by_cases h : td.name = name
      · subst h
        simp only [goLookup_goInsert_self, List.count_append] at hih
        simp at hih
        simp [hpre, List.map_cons, List.count_cons]
        omega
      · have h' : ¬name = td.name := fun hh => h hh.symm
        rw [goLookup_goInsert_ne _ _ _ _ h] at hih
        simp [List.count_append, List.count_cons, h', List.map_cons,
          List.mem_cons] at hih ⊢
        omega
    | none =>
      simp only [declareLoop, hpre]
      have hih := ih { tools := goInsert acc.tools td.name (toolOf td)
                       server := goInsert acc.server td.name
                         { tool := toolOf td, handlerCapturedName := td.name }
                       registered := acc.registered ++ [td.name]
                       updated := acc.updated }
      by_cases h : td.name = name
      · subst h
        simp only [goLookup_goInsert_self] at hih
        simp at hih
        simp [hpre, List.map_cons, List.count_cons]
        omega
      · have h' : ¬name = td.name := fun hh => h hh.symm
        rw [goLookup_goInsert_ne _ _ _ _ h] at hih
        simp [List.count_cons, h', List.map_cons, List.mem_cons] at hih ⊢
        omega

/-! ### `DeclareTools` corollaries -/

theorem declareTools_registered_count (cfg : Config) (st : PluginState)
    (req : DeclareToolsRequest) (name : String) :
    ((declareTools cfg st req).2.1.registered.count name) =
      if goLookup st.tools name = none ∧ name ∈ reqNames req then 1 else 0 := by
  have h := declareLoop_registered_count req.tools
    { tools := st.tools, server := st.server, registered := [], updated := [] } name
  simpa [declareTools, reqNames] using h

theorem declareTools_updated_count (cfg : Config) (st : PluginState)
    (req : DeclareToolsRequest) (name : String) :
    ((declareTools cfg st req).2.1.updated.count name) +
      (if goLookup st.tools name = none ∧ name ∈ reqNames req then 1 else 0) =
      (reqNames req).count name := by
  have h := declareLoop_updated_count req.tools
    { tools := st.tools, server := st.server, registered := [], updated := [] } name
  simpa [declareTools, reqNames] using h

theorem declareTools_lookup (cfg : Config) (st : PluginState)
    (req : DeclareToolsRequest) (name : String) :
    goLookup (declareTools cfg st req).1.tools name =
      match lastDefNamed name req.tools with
      | some td => some (toolOf td)
      | none => goLookup st.tools name := by
  have h := declareLoop_tools_lookup req.tools
    { tools := st.tools, server := st.server, registered := [], updated := [] } name
  simpa [declareTools] using h

theorem declareTools_keysNodup (cfg : Config) (st : PluginState)
    (req : DeclareToolsRequest) (h : keysNodup st.tools) :
    keysNodup (declareTools cfg st req).1.tools := by
  have h2 := declareLoop_keysNodup req.tools
    { tools := st.tools, server := st.server, registered := [], updated := [] } h
  simpa [declareTools] using h2

theorem declareTools_mem_registered_iff (cfg : Config) (st : PluginState)
    (req : DeclareToolsRequest) (name : String) :
    name ∈ (declareTools cfg st req).2.1.registered ↔
      goLookup st.tools name = none ∧ name ∈ reqNames req := by
  rw [← List.count_pos_iff, declareTools_registered_count]
  by_cases hc : goLookup st.tools name = none ∧ name ∈ reqNames req
  · simp [hc]
  · simp [hc]

theorem declareTools_mem_updated_of (cfg : Config) (st : PluginState)
    (req : DeclareToolsRequest) (name : String)
    (hname : name ∈ reqNames req) (hpre : (goLookup st.tools name).isSome) :
    name ∈ (declareTools cfg st req).2.1.updated := by
  rw [← List.count_pos_iff]
  have h := declareTools_updated_count cfg st req name
  have hc : ¬(goLookup st.tools name = none ∧ name ∈ reqNames req) := by
    intro hcon
    rw [hcon.1] at hpre
    simp at hpre
  rw [if_neg hc] at h
  have hp : 0 < (reqNames req).count name := List.count_pos_iff.mpr hname
  omega

theorem declareTools_lookup_isSome (cfg : Config) (st : PluginState)
    (req : DeclareToolsRequest) (name : String)
    (h : (goLookup st.tools name).isSome) :
    (goLookup (declareTools cfg st req).1.tools name).isSome := by
  rw [declareTools_lookup]
  cases hl : lastDefNamed name req.tools with
  | some td => simp
  | none => simpa using h

theorem stateAfter_cons (cfg : Config) (st : PluginState)
    (c : DeclareToolsRequest) (cs : List DeclareToolsRequest) :
    stateAfter cfg st (c :: cs) = stateAfter cfg (declareTools cfg st c).1 cs := rfl

theorem runDeclares_length (cfg : Config) (st : PluginState)
    (calls : List DeclareToolsRequest) :
    (runDeclares cfg st calls).2.length = calls.length := by
  induction calls generalizing st with
  | nil => rfl
  | cons c cs ih => simp [runDeclares, ih]

theorem stateAfter_take_succ (cfg : Config) (st : PluginState)
    (calls : List DeclareToolsRequest) (i : Nat) (hi : i < calls.length) :
    stateAfter cfg st (calls.take (i + 1)) =
      (declareTools cfg (stateAfter cfg st (calls.take i))
        (calls.getD i default)).1 := by
  induction calls generalizing st i with
  | nil => simp at hi
  | cons c cs ih =>
    cases i with
    | zero => simp [stateAfter, runDeclares]
    | succ j =>
      rw [List.take_succ_cons, List.take_succ_cons, stateAfter_cons,
        stateAfter_cons]
      have hj : j < cs.length := by simpa using hi
      simpa using ih (declareTools cfg st c).1 j hj

theorem runDeclares_getD (cfg : Config) (st : PluginState)
    (calls : List DeclareToolsRequest) (i : Nat) (hi : i < calls.length) :
    (runDeclares cfg st calls).2.getD i default =
      (declareTools cfg (stateAfter cfg st (calls.take i))
        (calls.getD i default)).2.1 := by
  induction calls generalizing st i with
  | nil => simp at hi
  | cons c cs ih =>
    cases i with
    | zero => simp [runDeclares, stateAfter]
    | succ j =>
      have hj : j < cs.length := by simpa using hi
      have step : (runDeclares cfg st (c :: cs)).2.getD (j + 1) default =
          (runDeclares cfg (declareTools cfg st c).1 cs).2.getD j default := by
        simp [runDeclares]
      rw [step, List.take_succ_cons, stateAfter_cons]
      simpa using ih (declareTools cfg st c).1 j hj

theorem stateAfter_keysNodup (cfg : Config) (st : PluginState)
    (calls : List DeclareToolsRequest) (h : keysNodup st.tools) :
    keysNodup (stateAfter cfg st calls).tools := by
  induction calls generalizing st with
  | nil => exact h
  | cons c cs ih =>
    rw [stateAfter_cons]
    exact ih _ (declareTools_keysNodup _ _ _ h)

theorem stateAfter_lookup_isSome (cfg : Config) (st : PluginState)
    (calls : List DeclareToolsRequest) (name : String)
    (h : (goLookup st.tools name).isSome) :
    (goLookup (stateAfter cfg st calls).tools name).isSome := by
  induction calls generalizing st with
  | nil => exact h
  | cons c cs ih =>
    rw [stateAfter_cons]
    exact ih _ (declareTools_lookup_isSome _ _ _ _ h)

theorem stateAfter_lookup_none_iff (cfg : Config) (st : PluginState)
    (calls : List DeclareToolsRequest) (name : String)
    (h0 : goLookup st.tools name = none) :
    goLookup (stateAfter cfg st calls).tools name = none ↔
      ∀ r ∈ calls, name ∉ reqNames r := by
  induction calls generalizing st with
  | nil => simp [stateAfter, runDeclares, h0]
  | cons c cs ih =>
    rw [stateAfter_cons]
    by_cases hc : name ∈ reqNames c
    · have hsome : (goLookup (declareTools cfg st c).1.tools name).isSome := by
        rw [declareTools_lookup]
        cases hl : lastDefNamed name c.tools with
        | some td => simp
        | none =>
          exact absurd hc (by
            have hn := (lastDefNamed_eq_none_iff name c.tools).mp hl
            simpa [reqNames] using hn)
      have hne : ¬goLookup (stateAfter cfg (declareTools cfg st c).1 cs).tools name
          = none := by
        have h2 := stateAfter_lookup_isSome cfg _ cs name hsome
        intro hcon
        rw [hcon] at h2
        simp at h2
      constructor
      · intro hcon
        exact absurd hcon hne
      · intro hall
        exact absurd hc (hall c (List.mem_cons_self _ _))
    · have hkeep : goLookup (declareTools cfg st c).1.tools name =
          goLookup st.tools name := by
        rw [declareTools_lookup]
        have hl : lastDefNamed name c.tools = none :=
          (lastDefNamed_eq_none_iff name c.tools).mpr (by simpa [reqNames] using hc)
        rw [hl]
      rw [ih _ (by rw [hkeep]; exact h0)]
      constructor
      · intro hall r hr
        rcases List.mem_cons.mp hr with h1 | h1
        · subst h1
          exact hc
        · exact hall r h1
      · intro hall r hr
        exact hall r (List.mem_cons_of_mem _ hr)

theorem getD_mem_take {α : Type} [Inhabited α] (l : List α) (i j : Nat)
    (hj : j < i) (hl : j < l.length) : l.getD j default ∈ l.take i := by
  have hlen : j < (l.take i).length := by
    simp only [List.length_take]
    omega
  have h1 : (l.take i)[j] = l[j] := List.getElem_take l
  rw [List.getD_eq_getElem l default hl, ← h1]
  exact List.getElem_mem hlen

theorem forall_mem_take {α : Type} [Inhabited α] (l : List α) (i : Nat)
    (P : α → Prop) (h : ∀ j, j < i → P (l.getD j default)) :
    ∀ r ∈ l.take i, P r := by
  intro r hr
  rw [List.mem_iff_getElem] at hr
  obtain ⟨j, hj, hjr⟩ := hr
  have hlen : j < min i l.length := by simpa [List.length_take] using hj
  have hji : j < i := lt_of_lt_of_le hlen (min_le_left _ _)
  have hjl : j < l.length := lt_of_lt_of_le hlen (min_le_right _ _)
  have h1 : (l.take i)[j] = l[j] := List.getElem_take l
  rw [← hjr, h1, ← List.getD_eq_getElem l default hjl]
  exact h j hji

/-! ### Claim theorems on tool registration -/

/-- C1: for every sequence of `DeclareTools` calls and every tool name not
initially present, the first call whose input contains the name reports it in
`Registered`, every subsequent call containing it reports it in `Updated`,
after each call containing it the registry holds that call's last definition
for the name (new definition replaces the old), and at no point does the tool
registry contain two entries with the same name. -/
theorem declareTools_first_registered_then_updated
    (cfg : Config) (st : PluginState) (calls : List DeclareToolsRequest)
    (name : String) (hnd : keysNodup st.tools)
    (h0 : goLookup st.tools name = none) :
    (∀ i, i < calls.length → name ∈ reqNames (calls.getD i default) →
      (∀ j, j < i → name ∉ reqNames (calls.getD j default)) →
      name ∈ ((runDeclares cfg st calls).2.getD i default).registered) ∧
    (∀ i, i < calls.length → name ∈ reqNames (calls.getD i default) →
      (∃ j, j < i ∧ name ∈ reqNames (calls.getD j default)) →
      name ∈ ((runDeclares cfg st calls).2.getD i default).updated) ∧
    (∀ i, i < calls.length → name ∈ reqNames (calls.getD i default) →
      goLookup (stateAfter cfg st (calls.take (i + 1))).tools name =
        (lastDefNamed name (calls.getD i default).tools).map toolOf) ∧
    (∀ k, keysNodup (stateAfter cfg st (calls.take k)).tools) := by
  refine ⟨?_, ?_, ?_, ?_⟩
  · intro i hi hmem hfirst
    rw [runDeclares_getD cfg st calls i hi]
    rw [declareTools_mem_registered_iff]
    refine ⟨?_, hmem⟩
    rw [stateAfter_lookup_none_iff cfg st _ name h0]
    exact forall_mem_take calls i (fun r => name ∉ reqNames r) hfirst
  · intro i hi hmem hex
    obtain ⟨j, hj, hjmem⟩ := hex
    rw [runDeclares_getD cfg st calls i hi]
    have hnotall : ¬(∀ r ∈ calls.take i, name ∉ reqNames r) := by
      intro hall
      exact hall (calls.getD j default)
        (getD_mem_take calls i j hj (lt_trans hj hi)) hjmem
    have hsome : (goLookup (stateAfter cfg st (calls.take i)).tools name).isSome := by
      rcases hopt : goLookup (stateAfter cfg st (calls.take i)).tools name with _ | v
      · exact absurd
          ((stateAfter_lookup_none_iff cfg st (calls.take i) name h0).mp hopt)
          hnotall
      · simp
    exact declareTools_mem_updated_of _ _ _ _ hmem hsome
  · intro i hi hmem
    rw [stateAfter_take_succ cfg st calls i hi]
    rw [declareTools_lookup]
    cases hl : lastDefNamed name (calls.getD i default).tools with
    | some td => simp
    | none =>
      have hn := (lastDefNamed_eq_none_iff name (calls.getD i default).tools).mp hl
      exact absurd hmem (by simpa [reqNames] using hn)
  · intro k
    exact stateAfter_keysNodup cfg st (calls.take k) hnd

/-- Witness for C1: a concrete two-call sequence re-declaring `"echo"`. -/
theorem declareTools_first_registered_then_updated_witness :
    keysNodup emptyState.tools ∧ goLookup emptyState.tools "echo" = none ∧
    ((∀ i, i < c1Calls.length → "echo" ∈ reqNames (c1Calls.getD i default) →
      (∀ j, j < i → "echo" ∉ reqNames (c1Calls.getD j default)) →
      "echo" ∈ ((runDeclares testConfig emptyState c1Calls).2.getD i default).registered) ∧
    (∀ i, i < c1Calls.length → "echo" ∈ reqNames (c1Calls.getD i default) →
      (∃ j, j < i ∧ "echo" ∈ reqNames (c1Calls.getD j default)) →
      "echo" ∈ ((runDeclares testConfig emptyState c1Calls).2.getD i default).updated) ∧
    (∀ i, i < c1Calls.length → "echo" ∈ reqNames (c1Calls.getD i default) →
      goLookup (stateAfter testConfig emptyState (c1Calls.take (i + 1))).tools "echo" =
        (lastDefNamed "echo" (c1Calls.getD i default).tools).map toolOf) ∧
    (∀ k, keysNodup (stateAfter testConfig emptyState (c1Calls.take k)).tools)) :=
  ⟨by simp [emptyState, keysNodup, keysOf], rfl,
    declareTools_first_registered_then_updated testConfig emptyState c1Calls
      "echo" (by simp [emptyState, keysNodup, keysOf]) rfl⟩

/-- C8: a name occurring more than once in a single `DeclareTools` request
while absent from the registry is counted once in `Registered` and once per
later occurrence in `Updated`, and the registry ends with the definition of
the last occurrence. -/
theorem declareTools_duplicate_names_in_request
    (cfg : Config) (st : PluginState) (req : DeclareToolsRequest) (name : String)
    (h0 : goLookup st.tools name = none)
    (hdup : 1 < (reqNames req).count name) :
    (declareTools cfg st req).2.1.registered.count name = 1 ∧
    (declareTools cfg st req).2.1.updated.count name =
      (reqNames req).count name - 1 ∧
    goLookup (declareTools cfg st req).1.tools name =
      (lastDefNamed name req.tools).map toolOf := by
  have hmem : name ∈ reqNames req := List.count_pos_iff.mp (by omega)
  refine ⟨?_, ?_, ?_⟩
  · rw [declareTools_registered_count, if_pos ⟨h0, hmem⟩]
  · have h := declareTools_updated_count cfg st req name
    rw [if_pos ⟨h0, hmem⟩] at h
    omega
  · rw [declareTools_lookup]
    cases hl : lastDefNamed name req.tools with
    | some td => simp
    | none =>
      have hn := (lastDefNamed_eq_none_iff name req.tools).mp hl
      exact absurd hmem (by simpa [reqNames] using hn)

/-- Witness for C8: one request declaring `"echo"` twice. -/
theorem declareTools_duplicate_names_in_request_witness :
    goLookup emptyState.tools "echo" = none ∧
    1 < (reqNames { tools := [tdEcho1, tdEcho2] }).count "echo" ∧
    ((declareTools testConfig emptyState
        { tools := [tdEcho1, tdEcho2] }).2.1.registered.count "echo" = 1 ∧
    (declareTools testConfig emptyState
        { tools := [tdEcho1, tdEcho2] }).2.1.updated.count "echo" =
      (reqNames { tools := [tdEcho1, tdEcho2] }).count "echo" - 1 ∧
    goLookup (declareTools testConfig emptyState
        { tools := [tdEcho1, tdEcho2] }).1.tools "echo" =
      (lastDefNamed "echo"
        (({ tools := [tdEcho1, tdEcho2] } : DeclareToolsRequest)).tools).map toolOf) :=
  ⟨rfl, by simp [reqNames, tdEcho1, tdEcho2],
    declareTools_duplicate_names_in_request testConfig emptyState
      { tools := [tdEcho1, tdEcho2] } "echo" rfl
      (by simp [reqNames, tdEcho1, tdEcho2])⟩

/-- C9: `Config.InitDefaults` unconditionally sets
`Tools.NotifyClientsOnChange` and `Auth.SkipForStdio` to `true`, overwriting
any explicitly configured `false`. -/
theorem initDefaults_forces_notify_and_skip_stdio (c : Config) :
    (Config.initDefaults c).1.tools.notifyClientsOnChange = true ∧
    (Config.initDefaults c).1.auth.skipForStdio = true :=
  ⟨rfl, rfl⟩

/-- C10: `RemoveTools` always returns a nil error, and the tools-changed
notification fires exactly when it is configured and the input list is
non-empty — independent of whether anything was actually removed. -/
theorem removeTools_success_and_notify (cfg : Config) (st : PluginState)
    (names : List String) :
    (removeTools cfg st names).2 = none ∧
    (removeTools cfg st names).1.notified =
      (if cfg.tools.notifyClientsOnChange ∧ 0 < names.length
       then st.notified + 1 else st.notified) :=
  ⟨rfl, rfl⟩

/-! ### Claim theorems on the dispatcher -/

/-- C5: every `sendEvent` outcome is definitive — exactly one of body and
error is set, the error (when present) comes from one of the four return
sites (serialization failure, pool execution failure, response-carried
error, no response from a closed channel), and `Exec` is invoked at most
once, never retried. -/
theorem sendEvent_definitive (pool : Pool) (sessions : GoMap SessionInfo)
    (ctx : Ctx) (sid ev : String) (pl : GoValue) :
    ¬((sendEvent pool sessions ctx sid ev pl).body = none ∧
      (sendEvent pool sessions ctx sid ev pl).err = none) ∧
    ((sendEvent pool sessions ctx sid ev pl).body.isSome ↔
      (sendEvent pool sessions ctx sid ev pl).err = none) ∧
    (sendEvent pool sessions ctx sid ev pl).execCalls ≤ 1 ∧
    ((sendEvent pool sessions ctx sid ev pl).err = none ∨
      (∃ m, (sendEvent pool sessions ctx sid ev pl).err =
        some (.encodingFailed m)) ∨
      (∃ m, (sendEvent pool sessions ctx sid ev pl).err =
        some (.workerExecFailed m)) ∨
      (∃ m, (sendEvent pool sessions ctx sid ev pl).err =
        some (.responseError m)) ∨
      (sendEvent pool sessions ctx sid ev pl).err = some .noResponse) ∧
    (∀ b, pl = .jsonable b →
      pool ctx { context := b, body := b } = .ok [] →
      (sendEvent pool sessions ctx sid ev pl).err = some .noResponse) := by
  cases pl with
  | unserializable m =>
    refine ⟨?_, ?_, ?_, ?_, ?_⟩ <;> simp [sendEvent, jsonMarshal]
  | jsonable b =>
    cases hp : pool ctx { context := b, body := b } with
    | error e =>
      refine ⟨?_, ?_, ?_, ?_, ?_⟩ <;> simp [sendEvent, jsonMarshal, hp]
    | ok rs =>
      cases rs with
      | nil =>
        refine ⟨?_, ?_, ?_, ?_, ?_⟩ <;>
          simp [sendEvent, jsonMarshal, hp, readResponses]
      | cons r0 rest =>
        cases hr : r0.err with
        | some e =>
          refine ⟨?_, ?_, ?_, ?_, ?_⟩ <;>
            simp [sendEvent, jsonMarshal, hp, readResponses, hr]
        | none =>
          refine ⟨?_, ?_, ?_, ?_, ?_⟩ <;>
            simp [sendEvent, jsonMarshal, hp, readResponses, hr]

/-- C2 counterexample: with an already-cancelled context, `sendEvent` still
invokes the pool's `Exec` (exactly once) — the claim that the dispatcher
returns without invoking the Worker Channel at all is false on the code. -/
theorem sendEvent_cancelled_counterexample :
    (sendEvent (cancelAwarePool []) [] ctxCancelled "s1" EventCallTool
      (GoValue.jsonable (Bytes.raw "{}"))).execCalls = 1 ∧
    ¬((sendEvent (cancelAwarePool []) [] ctxCancelled "s1" EventCallTool
      (GoValue.jsonable (Bytes.raw "{}"))).execCalls = 0) := by
  constructor
  · rfl
  · decide

/-- C2 amended: with an already-cancelled context the dispatcher passes the
context into the pool's `Exec` (exactly one invocation, never retried); when
`Exec` reports the cancellation error, `sendEvent` returns that error with
no body and without consuming any worker response. -/
theorem sendEvent_cancelled_returns_exec_error (pool : Pool)
    (sessions : GoMap SessionInfo) (ctx : Ctx) (sid ev : String) (b : Bytes)
    (e : String) (_hdone : ctx.done = true)
    (hpool : pool ctx { context := b, body := b } = .error e) :
    (sendEvent pool sessions ctx sid ev (.jsonable b)).err =
      some (.workerExecFailed e) ∧
    (sendEvent pool sessions ctx sid ev (.jsonable b)).body = none ∧
    (sendEvent pool sessions ctx sid ev (.jsonable b)).execCalls = 1 := by
  refine ⟨?_, ?_, ?_⟩ <;> simp [sendEvent, jsonMarshal, hpool]

/-- Witness for the amended C2 at a concrete cancelled call. -/
theorem sendEvent_cancelled_returns_exec_error_witness :
    ctxCancelled.done = true ∧
    cancelAwarePool [] ctxCancelled
      { context := Bytes.raw "{}", body := Bytes.raw "{}" } =
      .error "context canceled" ∧
    ((sendEvent (cancelAwarePool []) [] ctxCancelled "s1" EventCallTool
        (.jsonable (Bytes.raw "{}"))).err =
      some (.workerExecFailed "context canceled") ∧
    (sendEvent (cancelAwarePool []) [] ctxCancelled "s1" EventCallTool
        (.jsonable (Bytes.raw "{}"))).body = none ∧
    (sendEvent (cancelAwarePool []) [] ctxCancelled "s1" EventCallTool
        (.jsonable (Bytes.raw "{}"))).execCalls = 1) :=
  ⟨rfl, rfl, sendEvent_cancelled_returns_exec_error (cancelAwarePool []) []
    ctxCancelled "s1" EventCallTool (Bytes.raw "{}") "context canceled" rfl rfl⟩

/-- C6 (code-bug evidence): at a concrete call with a stored session token,
`sendEvent` builds the documented header map — event kind, session id,
content type, method, and the token — but the envelope handed to `pool.Exec`
is `payload.Payload` with only `Context` and `Body`, both the JSON body; no
header field is attached to the outbound envelope. -/
theorem sendEvent_headers_never_attached :
    (sendEvent (constPool [{ err := none, body := Bytes.raw "resp" }])
      [("s1", sessionS1)] ctxLive "s1" EventCallTool
      (GoValue.jsonable (Bytes.raw "{}"))).headersBuilt =
      [("X-MCP-Event", ["CallTool"]), ("X-Session-ID", ["s1"]),
       ("Content-Type", ["application/json"]), ("X-MCP-Method", ["POST"]),
       ("X-Client-Token", ["tok"])] ∧
    (sendEvent (constPool [{ err := none, body := Bytes.raw "resp" }])
      [("s1", sessionS1)] ctxLive "s1" EventCallTool
      (GoValue.jsonable (Bytes.raw "{}"))).sent =
      some { context := Bytes.raw "{}", body := Bytes.raw "{}" } := by
  constructor
  · rfl
  · rfl

/-- C3: a worker response decoding to `isError = true` is returned as a
successful handler result (nil Go error) with `IsError = true` and the
mapped content — never a dispatcher-level failure. -/
theorem toolHandler_tool_error_passthrough (pool : Pool) (now : Int)
    (st : PluginState) (toolName : String) (ctx : Ctx)
    (request : CallToolRequestGo) (a : Bytes) (resp : CallToolResponse)
    (hpool : ∀ p, pool ctx p =
      .ok [{ err := none, body := Bytes.callToolResponseB resp }])
    (hisErr : resp.isError = true) :
    (toolHandler pool now st toolName ctx request (.jsonable a)).2 =
      { result := some { content := resp.content.map mapContentItem,
                         isError := true },
        err := none } := by
  simp [toolHandler, jsonMarshal, sendEvent, hpool, readResponses,
    decodeCallToolResponse, hisErr]

/-- Witness for C3: a concrete worker response with `isError = true`. -/
theorem toolHandler_tool_error_passthrough_witness :
    (∀ p, constPool [{ err := none, body := Bytes.callToolResponseB respErrText }]
        ctxLive p =
      .ok [{ err := none, body := Bytes.callToolResponseB respErrText }]) ∧
    respErrText.isError = true ∧
    (toolHandler
        (constPool [{ err := none, body := Bytes.callToolResponseB respErrText }])
        0 emptyState "echo" ctxLive { params := none }
        (.jsonable (Bytes.raw "{}"))).2 =
      { result := some { content := respErrText.content.map mapContentItem,
                         isError := true },
        err := none } :=
  ⟨fun _ => rfl, rfl,
    toolHandler_tool_error_passthrough _ 0 emptyState "echo" ctxLive
      { params := none } (Bytes.raw "{}") respErrText (fun _ => rfl) rfl⟩

/-- C7: a content item whose tag is neither `"text"` nor `"image"` (such as
`"resource"` or any unknown tag) maps to a text item carrying its text
field, and a decoded response containing such items still yields a
successful (nil-error) handler return instead of failing the call. -/
theorem mapContentItem_unknown_defaults_to_text (c : MCPContent)
    (h1 : c.type ≠ "text") (h2 : c.type ≠ "image") :
    mapContentItem c = .textContent c.text ∧
    (∀ resp : CallToolResponse, c ∈ resp.content →
      McpSdkContent.textContent c.text ∈ resp.content.map mapContentItem) ∧
    (∀ (pool : Pool) (now : Int) (st : PluginState) (toolName : String)
      (ctx : Ctx) (request : CallToolRequestGo) (a : Bytes)
      (resp : CallToolResponse),
      (∀ p, pool ctx p =
        .ok [{ err := none, body := Bytes.callToolResponseB resp }]) →
      (toolHandler pool now st toolName ctx request (.jsonable a)).2.err =
        none) := by
  have hmap : mapContentItem c = .textContent c.text := by
    simp [mapContentItem, h1, h2]
  refine ⟨hmap, ?_, ?_⟩
  · intro resp hc
    rw [← hmap]
    exact List.mem_map_of_mem _ hc
  · intro pool now st toolName ctx request a resp hpool
    simp [toolHandler, jsonMarshal, sendEvent, hpool, readResponses,
      decodeCallToolResponse]

/-- Witness for C7 at the `"resource"` tag. -/
theorem mapContentItem_unknown_defaults_to_text_witness :
    resourceItem.type ≠ "text" ∧ resourceItem.type ≠ "image" ∧
    (mapContentItem resourceItem = .textContent resourceItem.text ∧
    (∀ resp : CallToolResponse, resourceItem ∈ resp.content →
      McpSdkContent.textContent resourceItem.text ∈
        resp.content.map mapContentItem) ∧
    (∀ (pool : Pool) (now : Int) (st : PluginState) (toolName : String)
      (ctx : Ctx) (request : CallToolRequestGo) (a : Bytes)
      (resp : CallToolResponse),
      (∀ p, pool ctx p =
        .ok [{ err := none, body := Bytes.callToolResponseB resp }]) →
      (toolHandler pool now st toolName ctx request (.jsonable a)).2.err =
        none)) :=
  ⟨by decide, by decide,
    mapContentItem_unknown_defaults_to_text resourceItem (by decide) (by decide)⟩

/-- C4: with authentication enabled, a worker denial (`allowed = false`), a
dispatch failure, or an undecodable response each make `authenticateSession`
return an error; the SSE handler then answers HTTP 401, never tracks the
session, and leaves the plugin state untouched. -/
theorem sse_auth_failure_rejects_connection (pool : Pool) (cfg : Config)
    (st : PluginState) (ctx : Ctx)
    (sessionID authHeader remoteAddr userAgent : String)
    (connect : ConnectOutcome) (now : Int)
    (henabled : cfg.auth.enabled = true)
    (hfail :
      (authExchange pool st.sessions ctx sessionID
        (buildCredentials authHeader remoteAddr userAgent)).err ≠ none ∨
      (∃ e, decodeClientConnectedResponse
        (((authExchange pool st.sessions ctx sessionID
          (buildCredentials authHeader remoteAddr userAgent)).body).getD
            (Bytes.raw "")) = .error e) ∨
      (∃ resp, decodeClientConnectedResponse
        (((authExchange pool st.sessions ctx sessionID
          (buildCredentials authHeader remoteAddr userAgent)).body).getD
            (Bytes.raw "")) = .ok resp ∧ resp.allowed = false)) :
    (∃ e, authenticateSession pool cfg st.sessions ctx sessionID
      (buildCredentials authHeader remoteAddr userAgent) = .error e) ∧
    serveSSERequest pool cfg st ctx sessionID authHeader remoteAddr userAgent
      connect now =
      { state := st,
        http := { status := 401, message := "Authentication failed" },
        sessionTracked := false } := by
  have hauth : ∃ e, authenticateSession pool cfg st.sessions ctx sessionID
      (buildCredentials authHeader remoteAddr userAgent) = .error e := by
    cases herr : (authExchange pool st.sessions ctx sessionID
        (buildCredentials authHeader remoteAddr userAgent)).err with
    | some e =>
      exact ⟨e.msg, by simp [authenticateSession, henabled, herr]⟩
    | none =>
      cases hdec : decodeClientConnectedResponse
          (((authExchange pool st.sessions ctx sessionID
            (buildCredentials authHeader remoteAddr userAgent)).body).getD
              (Bytes.raw "")) with
      | error e =>
        exact ⟨"invalid worker response: " ++ e,
          by simp [authenticateSession, henabled, herr, hdec]⟩
      | ok resp =>
        rcases hfail with hf | ⟨e, hf⟩ | ⟨resp2, hf, hallow⟩
        · exact absurd herr hf
        · rw [hdec] at hf
          simp at hf
        · rw [hdec] at hf
          have hr2 : resp2 = resp := by
            injection hf with h
            exact h.symm
          subst hr2
          exact ⟨"authentication failed: " ++ resp2.message,
            by simp [authenticateSession, henabled, herr, hdec, hallow]⟩
  refine ⟨hauth, ?_⟩
  obtain ⟨e, he⟩ := hauth
  simp [serveSSERequest, henabled, he]

/-- Witness for C4: a concrete worker that denies the handshake. -/
theorem sse_auth_failure_rejects_connection_witness :
    testConfig.auth.enabled = true ∧
    ((authExchange denyPool emptyState.sessions ctxLive "s1"
        (buildCredentials "Bearer abc" "1.2.3.4" "ua")).err ≠ none ∨
     (∃ e, decodeClientConnectedResponse
        (((authExchange denyPool emptyState.sessions ctxLive "s1"
          (buildCredentials "Bearer abc" "1.2.3.4" "ua")).body).getD
            (Bytes.raw "")) = .error e) ∨
     (∃ resp, decodeClientConnectedResponse
        (((authExchange denyPool emptyState.sessions ctxLive "s1"
          (buildCredentials "Bearer abc" "1.2.3.4" "ua")).body).getD
            (Bytes.raw "")) = .ok resp ∧ resp.allowed = false)) ∧
    ((∃ e, authenticateSession denyPool testConfig emptyState.sessions ctxLive
        "s1" (buildCredentials "Bearer abc" "1.2.3.4" "ua") = .error e) ∧
     serveSSERequest denyPool testConfig emptyState ctxLive "s1" "Bearer abc"
        "1.2.3.4" "ua" .connected 0 =
       { state := emptyState,
         http := { status := 401, message := "Authentication failed" },
         sessionTracked := false }) :=
  ⟨rfl, Or.inr (Or.inr ⟨_, rfl, rfl⟩),
    sse_auth_failure_rejects_connection denyPool testConfig emptyState ctxLive
      "s1" "Bearer abc" "1.2.3.4" "ua" .connected 0 rfl
      (Or.inr (Or.inr ⟨_, rfl, rfl⟩))⟩

end Mcp
